import Mathlib

/-!
Verification development for the Chronos calendar application's external
calendar synchronization subsystem (sources: `src/services/googleCalendarService.ts`,
`src/App.tsx`, `src/components/GoogleConfigModal.tsx`, `src/components/EventModal.tsx`).

Strings are embedded as `List Char` (`Str`); the JavaScript string primitives used
by the sources (`includes`, `startsWith`, `endsWith`, `toLowerCase`, `split`) are
modelled below over the ASCII fragment the sources exercise.  Instants are minutes
since the Unix epoch (`Int`); an invalid JavaScript `Date` is `none : Option Int`.
-/

/-- Strings as character lists, the representation all embedded code works over. -/
abbrev Str := List Char

/-- Model of JavaScript `String.prototype.includes`: substring occurrence test. -/
def includesSub : Str → Str → Bool
  | [], pat => pat.isEmpty
  | h :: t, pat => pat.isPrefixOf (h :: t) || includesSub t pat

/-- Model of JavaScript `String.prototype.startsWith` (and of the `^`-anchored
regex test used at `GoogleConfigModal.tsx:158`). -/
def startsWithS (hay pat : Str) : Bool := pat.isPrefixOf hay

/-- Model of JavaScript `String.prototype.endsWith`. -/
def endsWithS (hay pat : Str) : Bool := pat.isSuffixOf hay

/-- Model of JavaScript `String.prototype.toLowerCase` on the ASCII fragment. -/
def lowerS (s : Str) : Str := s.map Char.toLower

/-- A needle is always found inside `a ++ pat ++ b` (soundness fact for
`includesSub`, used to check that classifier messages name the calendar id). -/
lemma includesSub_append_middle (a pat b : Str) :
    includesSub (a ++ pat ++ b) pat = true := by
  induction a with
  | nil =>
    cases pat with
    | nil => cases b <;> simp [includesSub]
    | cons p ps =>
      simp only [List.nil_append, includesSub, Bool.or_eq_true]
      left
      exact List.isPrefixOf_iff_prefix.mpr (by simp)
  | cons x xs ih =>
    simp only [List.cons_append, includesSub, Bool.or_eq_true]
    right
    exact ih

/-- The event category enum of `src/types` (values from `constants.ts`). -/
inductive EventCategory where
  | WORK
  | PERSONAL
  | HEALTH
  | LEARNING
  | MEETING
  | OTHER
deriving DecidableEq, Repr

/-- Keyword list of the Personal rule (`googleCalendarService.ts:191`). -/
def personalTerms : List Str :=
  [("lunch").data, ("dinner").data, ("party").data, ("bday").data, ("birthday").data]

/-- Keyword list of the Health rule (`googleCalendarService.ts:192`). -/
def healthTerms : List Str :=
  [("doctor").data, ("gym").data, ("workout").data, ("meditation").data, ("dentist").data]

/-- Keyword list of the Learning rule (`googleCalendarService.ts:193`). -/
def learningTerms : List Str :=
  [("study").data, ("course").data, ("class").data, ("learning").data, ("tutorial").data]

/-- Keyword list of the Work rule (`googleCalendarService.ts:194`). -/
def workTerms : List Str :=
  [("work").data, ("standup").data, ("sync").data, ("meeting").data, ("dev").data, ("code").data]

/-- Category heuristic of `parseGoogleEvent` (`googleCalendarService.ts:187-194`):
an if/else chain over case-insensitive substring tests on the title.  The JS
`.includes(k)` calls and the alternation regexes `/a|b|c/` are both substring
occurrence tests, embedded as `includesSub`. -/
def inferCategory (summary : Str) : EventCategory :=
  let lowerSummary := lowerS summary
  if includesSub lowerSummary (("lunch").data) || includesSub lowerSummary (("dinner").data)
      || includesSub lowerSummary (("party").data) || includesSub lowerSummary (("bday").data)
      || includesSub lowerSummary (("birthday").data) then EventCategory.PERSONAL
  else if includesSub lowerSummary (("doctor").data) || includesSub lowerSummary (("gym").data)
      || includesSub lowerSummary (("workout").data) || includesSub lowerSummary (("meditation").data)
      || includesSub lowerSummary (("dentist").data) then EventCategory.HEALTH
  else if includesSub lowerSummary (("study").data) || includesSub lowerSummary (("course").data)
      || includesSub lowerSummary (("class").data) || includesSub lowerSummary (("learning").data)
      || includesSub lowerSummary (("tutorial").data) then EventCategory.LEARNING
  else if includesSub lowerSummary (("work").data) || includesSub lowerSummary (("standup").data)
      || includesSub lowerSummary (("sync").data) || includesSub lowerSummary (("meeting").data)
      || includesSub lowerSummary (("dev").data) || includesSub lowerSummary (("code").data)
      then EventCategory.WORK
  else EventCategory.MEETING

/-- The spec's view of the same heuristic: an explicit ordered list of
(keyword-list, category) rules, evaluated in fixed priority order
(spec 4.2 and 9). -/
def categoryRules : List (List Str × EventCategory) :=
  [(personalTerms, EventCategory.PERSONAL),
   (healthTerms, EventCategory.HEALTH),
   (learningTerms, EventCategory.LEARNING),
   (workTerms, EventCategory.WORK)]

/-- First-match evaluation of an ordered rule list (spec 9: "an explicit ordered
list of (predicate, category) pairs evaluated in fixed priority order"). -/
def firstRule (title : Str) : List (List Str × EventCategory) → EventCategory
  | [] => EventCategory.MEETING
  | r :: rest =>
    if r.1.any (fun t => includesSub (lowerS title) t) then r.2 else firstRule title rest

/-- Spec-side classifier: first rule whose keyword list has a case-insensitive
hit in the title wins; default is Meeting. -/
def specCategory (title : Str) : EventCategory := firstRule title categoryRules

/-- C6: the inferred category is the case-insensitive keyword match on the title
in the fixed priority order Personal, Health, Learning, Work with default
Meeting (first matching rule wins, never Other); a title containing
"Dentist Appointment" classifies as Health, "Team Standup" (in any casing)
as Work, and an unmatched title as Meeting. -/
theorem inferCategory_matches_ordered_rules :
    (∀ s : Str, inferCategory s = specCategory s
        ∧ ((inferCategory s == EventCategory.OTHER) = false))
    ∧ inferCategory (("Dentist Appointment").data) = EventCategory.HEALTH
    ∧ inferCategory (("Team Standup").data) = EventCategory.WORK
    ∧ inferCategory (("TEAM STANDUP").data) = EventCategory.WORK
    ∧ inferCategory (("Errands").data) = EventCategory.MEETING := by
  refine ⟨fun s => ⟨?_, ?_⟩, by decide, by decide, by decide, by decide⟩
  · simp [inferCategory, specCategory, firstRule, categoryRules, personalTerms, healthTerms,
      learningTerms, workTerms, Bool.or_assoc]
  · simp only [inferCategory]
    split_ifs <;> rfl

/-- Splitting a character list at every occurrence of a separator character:
model of JavaScript `String.prototype.split` with a single-character separator
(used by `parseGoogleEvent` on the all-day `YYYY-MM-DD` strings). -/
def splitOnChar (sep : Char) : Str → List Str
  | [] => [[]]
  | c :: cs =>
    match splitOnChar sep cs with
    | [] => [[]]
    | g :: gs => if c = sep then [] :: g :: gs else (c :: g) :: gs

/-- Digit-string value, the ASCII-decimal fragment of JavaScript `Number(...)`:
`none` models `NaN`; the empty string converts to `0` as in JavaScript. -/
def jsNumber (s : Str) : Option Int :=
  if s.isEmpty then some 0
  else if s.all Char.isDigit then
    some ((s.foldl (fun acc c => acc * 10 + (c.toNat - 48)) 0 : Nat) : Int)
  else none

/-- Days from the Unix epoch to the civil date `y-m-d`, for `1 ≤ m ≤ 12` and an
arbitrary (possibly out-of-range) day, matching the rollover arithmetic of the
host `Date` implementation; standard civil-from-days inverse formula. -/
def daysFromCivil (y m d : Int) : Int :=
  let yy := if m ≤ 2 then y - 1 else y
  let era := yy.fdiv 400
  let yoe := yy - era * 400
  let mp := (m + 9).emod 12
  let doy := (153 * mp + 2).fdiv 5 + d - 1
  let doe := yoe * 365 + yoe.fdiv 4 - yoe.fdiv 100 + doy
  era * 146097 + doe - 719468

/-- The host environment consumed by the service: current time, the result of
`Date.prototype.getTimezoneOffset` (minutes, UTC minus local, positive west of
UTC), and the platform parser behind `new Date(string)` for timed ISO instants
(`none` models an invalid date). -/
structure Host where
  nowMin : Int
  tzOffsetMin : Int
  parseDateTime : String → Option Int

/-- Model of the JavaScript local-time constructor `new Date(year, monthIndex, day)`:
month overflow rolls the year, day overflow rolls linearly.  Result is minutes
since epoch of local midnight of that (rolled) civil date. -/
def jsDateLocal (host : Host) (year monthIndex day : Int) : Int :=
  let y := year + monthIndex.fdiv 12
  let m := monthIndex.emod 12 + 1
  daysFromCivil y m day * 1440 + host.tzOffsetMin

/-- Local midnight of the civil date `y-m-d` on the given host (spec 4.2:
"all-day dates must be interpreted as local calendar dates"). -/
def localMidnight (host : Host) (y m d : Int) : Int :=
  daysFromCivil y m d * 1440 + host.tzOffsetMin

/-- One side (`start` or `end`) of a raw Google event: a timed instant string or
an all-day calendar-date string, as delivered by the provider. -/
structure GDateSpec where
  dateTime : Option String
  date : Option String
deriving DecidableEq, Repr

/-- A raw provider event record, the fields `parseGoogleEvent` reads.  The field
`stop` embeds the source's `end` field (a reserved word in Lean). -/
structure GoogleRawEvent where
  id : String
  summary : Option String
  description : Option String
  location : Option String
  start : GDateSpec
  stop : GDateSpec
deriving DecidableEq, Repr

/-- The application's canonical event model (`src/types`); `stop` embeds the
source's `end` field, and instants are `Option Int` (none = invalid date). -/
structure CalendarEvent where
  id : String
  title : String
  description : Option String
  start : Option Int
  stop : Option Int
  category : EventCategory
  location : Option String
  isGoogleEvent : Bool
  googleId : Option String
deriving DecidableEq, Repr

/-- JavaScript `a || dflt` on an optional string (empty string is falsy). -/
def jsOrStr (s : Option String) (dflt : String) : String :=
  match s with
  | some v => if v = ("") then dflt else v
  | none => dflt

/-- Model of `Number(parts[i])`: a missing index is `undefined`, and `Number(undefined)`
is `NaN` (`none`). -/
def partNum (parts : List Str) (i : Nat) : Option Int :=
  match parts.get? i with
  | some p => jsNumber p
  | none => none

/-- Embedding of `new Date(Number(parts[0]), Number(parts[1]) - 1, Number(parts[2]))` from
the all-day branch of `parseGoogleEvent` (`googleCalendarService.ts:177-181`). -/
def mkLocalFromParts (host : Host) (parts : List Str) : Option Int :=
  match partNum parts 0, partNum parts 1, partNum parts 2 with
  | some y, some m, some d => some (jsDateLocal host y (m - 1) d)
  | _, _, _ => none

/-- Embedding of `parseGoogleEvent` (`googleCalendarService.ts:166-207`): timed
events via the platform instant parser; all-day events by splitting the bare
`YYYY-MM-DD` string and building a local date; neither representation degrades
to "now"; category from the title heuristic; missing title becomes "No Title". -/
def parseGoogleEvent (host : Host) (event : GoogleRawEvent) : CalendarEvent :=
  let se : Option Int × Option Int :=
    match event.start.dateTime with
    | some sdt =>
      let s := host.parseDateTime sdt
      (s, match event.stop.dateTime with
          | some edt => host.parseDateTime edt
          | none => s)
    | none =>
      match event.start.date with
      | some sd =>
        let parts := splitOnChar ('-') sd.data
        let endParts :=
          match event.stop.date with
          | some ed => splitOnChar ('-') ed.data
          | none => parts
        (mkLocalFromParts host parts, mkLocalFromParts host endParts)
      | none => (some host.nowMin, some host.nowMin)
  { id := event.id
    title := jsOrStr event.summary ("No Title")
    description := event.description
    start := se.1
    stop := se.2
    category := inferCategory ((jsOrStr event.summary ("")).data)
    location := event.location
    isGoogleEvent := true
    googleId := some event.id }

/-- For an in-range month the JS local-date constructor performs no rollover,
landing exactly on local midnight of the given civil date. -/
lemma jsDateLocal_in_range (host : Host) (y m d : Int) (h1 : 1 ≤ m) (h2 : m ≤ 12) :
    jsDateLocal host y (m - 1) d = localMidnight host y m d := by
  unfold jsDateLocal localMidnight
  have hf : (m - 1).fdiv 12 = 0 := by
    rw [Int.fdiv_eq_ediv _ (by norm_num)]
    exact Int.ediv_eq_zero_of_lt (by omega) (by omega)
  have he : (m - 1).emod 12 = m - 1 := Int.emod_eq_of_lt (by omega) (by omega)
  rw [hf, he]
  norm_num

/-- C5: an all-day provider record (start given as a bare `YYYY-MM-DD` calendar
date) normalizes, on every host timezone offset, to a start at local midnight
of that civil date — the components are parsed directly and fed to the local
`Date` constructor, so there is no UTC-parse day shift. -/
theorem allDay_normalizes_to_local_midnight (host : Host) (ev : GoogleRawEvent)
    (ds : String) (ys ms dss : Str) (y m d : Int)
    (hdt : ev.start.dateTime = none) (hds : ev.start.date = some ds)
    (hsplit : splitOnChar ('-') ds.data = [ys, ms, dss])
    (hy : jsNumber ys = some y) (hm : jsNumber ms = some m) (hd : jsNumber dss = some d)
    (hm1 : 1 ≤ m) (hm2 : m ≤ 12) :
    (parseGoogleEvent host ev).start = some (localMidnight host y m d) := by
  simp [parseGoogleEvent, hdt, hds, hsplit, mkLocalFromParts, partNum, hy, hm, hd,
    jsDateLocal_in_range host y m d hm1 hm2]

/-- Fixture host: UTC-8 (offset +480 minutes, i.e. west of UTC), an arbitrary
current time, and a trivial timed-instant parser. -/
def hostW : Host := { nowMin := 29000000, tzOffsetMin := 480, parseDateTime := fun _ => none }

/-- Fixture: the spec's all-day record spanning 2024-03-10 to 2024-03-11. -/
def evAllDayW : GoogleRawEvent :=
  { id := "g1", summary := some ("Company Holiday"), description := none, location := none,
    start := { dateTime := none, date := some ("2024-03-10") },
    stop := { dateTime := none, date := some ("2024-03-11") } }

/-- Witness for C5 at the spec's example: the 2024-03-10 all-day record starts
at local midnight of 2024-03-10 on a host 8 hours west of UTC. -/
theorem allDay_normalizes_to_local_midnight_witness :
    (parseGoogleEvent hostW evAllDayW).start = some (localMidnight hostW 2024 3 10) :=
  allDay_normalizes_to_local_midnight hostW evAllDayW ("2024-03-10")
    (("2024").data) (("03").data) (("10").data) 2024 3 10
    rfl rfl (by decide) (by decide) (by decide) (by decide) (by norm_num) (by norm_num)

/-- C9: normalization is total over well-formed provider records (a total
function of `GoogleRawEvent`); a record carrying a start but no end normalizes
with end equal to start (zero-duration), and a record with neither a timed nor
an all-day start normalizes with both start and end equal to the current time. -/
theorem normalize_startOnly_and_default_now :
    (∀ (host : Host) (ev : GoogleRawEvent) (sdt : String),
        ev.start.dateTime = some sdt → ev.stop = { dateTime := none, date := none } →
        (parseGoogleEvent host ev).stop = (parseGoogleEvent host ev).start)
    ∧ (∀ (host : Host) (ev : GoogleRawEvent) (sd : String),
        ev.start.dateTime = none → ev.start.date = some sd →
        ev.stop = { dateTime := none, date := none } →
        (parseGoogleEvent host ev).stop = (parseGoogleEvent host ev).start)
    ∧ (∀ (host : Host) (ev : GoogleRawEvent),
        ev.start.dateTime = none → ev.start.date = none →
        (parseGoogleEvent host ev).start = some host.nowMin
          ∧ (parseGoogleEvent host ev).stop = some host.nowMin) := by
  refine ⟨?_, ?_, ?_⟩
  · intro host ev sdt h1 h2
    simp [parseGoogleEvent, h1, h2]
  · intro host ev sd h1 h2 h3
    simp [parseGoogleEvent, h1, h2, h3]
  · intro host ev h1 h2
    simp [parseGoogleEvent, h1, h2]

/-- Fixture: a timed record carrying only a start. -/
def evTimedOnlyW : GoogleRawEvent :=
  { id := "g2", summary := none, description := none, location := none,
    start := { dateTime := some ("2024-03-15T10:00:00Z"), date := none },
    stop := { dateTime := none, date := none } }

/-- Witness for C9: a record with only a start normalizes with end = start. -/
theorem normalize_startOnly_witness :
    (parseGoogleEvent hostW evTimedOnlyW).stop = (parseGoogleEvent hostW evTimedOnlyW).start :=
  normalize_startOnly_and_default_now.1 hostW evTimedOnlyW ("2024-03-15T10:00:00Z") rfl rfl

/-- C10: category inference reads only the summary (title): two provider records
with equal summaries are assigned the same category whatever their other fields
(id, description, location, start, end) and whatever the host environment. -/
theorem category_depends_only_on_title (ha hb : Host) (e1 e2 : GoogleRawEvent)
    (hsum : e1.summary = e2.summary) :
    (parseGoogleEvent ha e1).category = (parseGoogleEvent hb e2).category := by
  simp [parseGoogleEvent, hsum]

/-- Fixture: a timed record titled "Team Standup" with every non-title field set. -/
def evTitleAW : GoogleRawEvent :=
  { id := "a1", summary := some ("Team Standup"), description := some ("notes"),
    location := some ("HQ"),
    start := { dateTime := some ("2024-01-01T10:00:00Z"), date := none },
    stop := { dateTime := some ("2024-01-01T11:00:00Z"), date := none } }

/-- Fixture: an all-day record with the same title and different other fields. -/
def evTitleBW : GoogleRawEvent :=
  { id := "b2", summary := some ("Team Standup"), description := none, location := none,
    start := { dateTime := none, date := some ("2024-05-06") },
    stop := { dateTime := none, date := none } }

/-- Fixture host differing from `hostW` in every component. -/
def hostW2 : Host := { nowMin := 0, tzOffsetMin := -60, parseDateTime := fun _ => some 7 }

/-- Witness for C10: two records sharing the title "Team Standup" but differing
in id, description, location, dates and host get the same category. -/
theorem category_depends_only_on_title_witness :
    (parseGoogleEvent hostW evTitleAW).category = (parseGoogleEvent hostW2 evTitleBW).category :=
  category_depends_only_on_title hostW hostW2 evTitleAW evTitleBW rfl

/-- The App component's sync-relevant state (`App.tsx:183-184`): locally
authored events and the provider-sourced set, kept disjoint. -/
structure AppState where
  events : List CalendarEvent
  googleEvents : List CalendarEvent
deriving DecidableEq, Repr

/-- Embedding of `handleAddEvent` (`App.tsx:271-284`): edit mode maps over the local events
replacing the edited id; create mode appends a fresh event under a new id.
Only `events` is touched. -/
def handleAddEvent (editingEvent : Option CalendarEvent) (newId : String)
    (eventData : CalendarEvent) (s : AppState) : AppState :=
  match editingEvent with
  | some ev =>
    { s with events :=
        s.events.map (fun e => if e.id = ev.id then { eventData with id := ev.id } else e) }
  | none => { s with events := s.events ++ [{ eventData with id := newId }] }

/-- Embedding of `handleDeleteEvent` (`App.tsx:286-288`): filters the local set by id. -/
def handleDeleteEvent (id : String) (s : AppState) : AppState :=
  { s with events := s.events.filter (fun e => e.id != id) }

/-- Embedding of `handleSave` of the event modal (`EventModal.tsx:258-271`): a no-op while a
provider-sourced event is being viewed (`if (isGoogle) return`) or when a
required field is empty; otherwise it builds the event data (which carries no
`isGoogleEvent` flag and no `googleId`) and invokes the save callback, which is
`handleAddEvent`. -/
def modalSave (host : Host) (editingEvent : Option CalendarEvent) (newId : String)
    (title descr : String) (cat : EventCategory) (startTime endTime : String)
    (s : AppState) : AppState :=
  if (match editingEvent with | some e => e.isGoogleEvent | none => false) then s
  else if title = ("") ∨ startTime = ("") ∨ endTime = ("") then s
  else
    handleAddEvent editingEvent newId
      { id := "", title := title, description := some descr,
        start := host.parseDateTime startTime, stop := host.parseDateTime endTime,
        category := cat, location := none, isGoogleEvent := false, googleId := none } s

/-- The UI operations reachable from the event dialog and the calendar view:
modal save (create or edit), the save callback itself, and delete by id. -/
inductive UIAction where
  | modalOp (editingEvent : Option CalendarEvent) (newId title descr : String)
      (cat : EventCategory) (startTime endTime : String)
  | addOp (editingEvent : Option CalendarEvent) (newId : String) (eventData : CalendarEvent)
  | deleteOp (id : String)

/-- Dispatch of one UI operation on the App state. -/
def applyUIAction (host : Host) (s : AppState) : UIAction → AppState
  | .modalOp ed newId title descr cat st et => modalSave host ed newId title descr cat st et s
  | .addOp ed newId eventData => handleAddEvent ed newId eventData s
  | .deleteOp id => handleDeleteEvent id s

/-- Each single UI operation leaves the provider-sourced set untouched. -/
lemma applyUIAction_preserves_google (host : Host) (s : AppState) (a : UIAction) :
    (applyUIAction host s a).googleEvents = s.googleEvents := by
  cases a with
  | modalOp ed newId title descr cat st et =>
    simp only [applyUIAction, modalSave]
    split
    · rfl
    · split
      · rfl
      · cases ed <;> simp [handleAddEvent]
  | addOp ed newId eventData => cases ed <;> simp [applyUIAction, handleAddEvent]
  | deleteOp id => simp [applyUIAction, handleDeleteEvent]

/-- C4: under every sequence of UI save, edit and delete operations the
provider-sourced event set is unchanged — saving while a provider-sourced
event is being viewed and deleting by any id (including a provider-sourced
event's id) all leave `googleEvents` intact; those operations only rewrite the
locally-authored `events` list. -/
theorem uiOps_preserve_googleEvents (host : Host) (acts : List UIAction) (s : AppState) :
    (acts.foldl (applyUIAction host) s).googleEvents = s.googleEvents := by
  induction acts generalizing s with
  | nil => rfl
  | cons a rest ih =>
    rw [List.foldl_cons, ih, applyUIAction_preserves_google]

/-- A settled provider fetch response: the window it was requested for, and the
normalized events it returned. -/
structure FetchResponse where
  windowStart : Int
  windowEnd : Int
  events : List CalendarEvent
deriving DecidableEq, Repr

/-- The response handler `.then(fetchedEvents => setGoogleEvents(fetchedEvents))`
(`App.tsx:248-251` and `App.tsx:309-310`): every settling response replaces the
provider-sourced set wholesale; no sequence or window marker is consulted. -/
def applyFetchResponse (s : AppState) (r : FetchResponse) : AppState :=
  { s with googleEvents := r.events }

/-- Applying settled responses in settlement order. -/
def applyResponses (rs : List FetchResponse) (s : AppState) : AppState :=
  rs.foldl applyFetchResponse s

/-- Fixture: a distinctive event of the older window. -/
def gEvOldW : CalendarEvent :=
  { id := "ga", title := "Old window event", description := none, start := some 0,
    stop := some 60, category := EventCategory.MEETING, location := none,
    isGoogleEvent := true, googleId := some "ga" }

/-- Fixture: a distinctive event of the newer window. -/
def gEvNewW : CalendarEvent :=
  { id := "gb", title := "New window event", description := none, start := some 100000,
    stop := some 100060, category := EventCategory.MEETING, location := none,
    isGoogleEvent := true, googleId := some "gb" }

/-- Fixture: the older-window response. -/
def respOldW : FetchResponse := { windowStart := 0, windowEnd := 44640, events := [gEvOldW] }

/-- Fixture: the newer-window response. -/
def respNewW : FetchResponse :=
  { windowStart := 88000, windowEnd := 132000, events := [gEvNewW] }

/-- C3 counterexample: when the older-window response settles after the
newer-window response, the provider-sourced set visible once both settled is
the older response's events, not the newer's — the older result does overwrite
the newer one. -/
theorem stale_fetch_overwrites_newer :
    ((applyResponses [respNewW, respOldW]
        { events := [], googleEvents := [] }).googleEvents == respNewW.events) = false
    ∧ (applyResponses [respNewW, respOldW]
        { events := [], googleEvents := [] }).googleEvents = respOldW.events := by
  exact ⟨by decide, rfl⟩

/-- C3 amended: the provider-sourced set visible after a batch of settlements
equals the events of whichever response settled last, regardless of which
window is newer — the handler is last-write-wins and carries no staleness
guard. -/
theorem last_settled_response_wins (rs : List FetchResponse) (r : FetchResponse) (s : AppState) :
    (applyResponses (rs ++ [r]) s).googleEvents = r.events := by
  simp [applyResponses, List.foldl_append, applyFetchResponse]

/-- The module-level readiness flags of `googleCalendarService.ts:14-15`
(`gapiInited`, `gisInited`).  They are assigned `true` at lines 53 and 67 and
are never reset anywhere in the module. -/
structure InitFlags where
  gapiInited : Bool
  gisInited : Bool
deriving DecidableEq, Repr

/-- The two asynchronous completions of one `initializeGoogleApi` invocation:
`gapi.client.init` finishing for the given apiKey (lines 47-54), and the GIS
token-client setup finishing for the given clientId (lines 61-68). -/
inductive InitStep where
  | gapiDone
  | gisDone
deriving DecidableEq, Repr

/-- The flag assignment each completion performs just before `checkInit`. -/
def stepFlags (f : InitFlags) : InitStep → InitFlags
  | .gapiDone => { f with gapiInited := true }
  | .gisDone => { f with gisInited := true }

/-- Embedding of `checkInit` (`googleCalendarService.ts:75-79`): the promise resolves
exactly when both flags hold. -/
def checkInit (f : InitFlags) : Bool := f.gapiInited && f.gisInited

/-- Index of the completion at which the invocation's promise resolves, given
the module flags carried in from any earlier invocation (the module never
clears them); `none` when it does not resolve within the trace. -/
def resolveIndex (f : InitFlags) : List InitStep → Option Nat
  | [] => none
  | st :: rest =>
    let f2 := stepFlags f st
    if checkInit f2 then some 0 else (resolveIndex f2 rest).map (· + 1)

/-- C1 (evaluation at the failing input): a second `initializeGoogleApi`
invocation starts with both module flags still `true` from the first
invocation, and in it the synchronous GIS branch always completes before the
new `gapi.client.init`; the promise then resolves at index 0 — the GIS step —
although the current invocation's gapi initialization (`gapiDone`) is not
among the completions that have happened by then.  Stale state from the
earlier invocation lets the promise resolve early, contradicting the claim. -/
theorem reinit_resolves_before_current_gapi_init :
    resolveIndex { gapiInited := true, gisInited := true }
        [InitStep.gisDone, InitStep.gapiDone] = some 0
    ∧ (([InitStep.gisDone, InitStep.gapiDone].take (0 + 1)).contains InitStep.gapiDone)
        = false := by
  exact ⟨by decide, by decide⟩

/-- Error kinds of the sync layer (spec 3, `SyncError`). -/
inductive SyncErrorKind where
  | NotFound
  | AuthRequired
  | PopupBlocked
  | Generic
deriving DecidableEq, Repr

/-- A classified sync failure, held for user display. -/
structure SyncError where
  kind : SyncErrorKind
  message : String
deriving DecidableEq, Repr

/-- Shape of a provider fetch failure: an optional structured status code plus
the provider's human-readable message. -/
structure ProviderFailure where
  status : Option Int
  message : String
deriving DecidableEq, Repr

/-- A failure shaped as "the requested calendar resource does not exist":
structured 404 status, or a not-found message. -/
def indicatesNotFound (f : ProviderFailure) : Bool :=
  f.status == some 404 || includesSub (lowerS f.message.data) (("not found").data)

/-- A failure shaped as a missing or invalid credential. -/
def indicatesAuthRequired (f : ProviderFailure) : Bool :=
  f.status == some 401 || f.status == some 403
    || includesSub (lowerS f.message.data) (("no access token").data)
    || includesSub (lowerS f.message.data) (("invalid credential").data)

/-- A failure shaped as the consent popup being blocked by the platform. -/
def indicatesPopupBlocked (f : ProviderFailure) : Bool :=
  includesSub (lowerS f.message.data) (("popup").data)

/-- Modelled from the spec: the failure classifier of the sync layer.  The
orchestration that classifies fetch failures (`signInAndListEvents`, imported
at `App.tsx:173`) is not present under `src/` — only its callers are — so the
classifier is modelled from spec 4.5: most-specific match wins in the order
NotFound, AuthRequired, PopupBlocked, then Generic carrying the underlying
message verbatim; the NotFound message names the offending calendar
identifier. -/
def classifySyncError (calendarId : String) (f : ProviderFailure) : SyncError :=
  if indicatesNotFound f then
    { kind := SyncErrorKind.NotFound, message := ("Calendar not found: ") ++ calendarId }
  else if indicatesAuthRequired f then
    { kind := SyncErrorKind.AuthRequired,
      message := ("Authentication required. Please sign in again.") }
  else if indicatesPopupBlocked f then
    { kind := SyncErrorKind.PopupBlocked,
      message := ("Popup blocked. Please allow popups for this site.") }
  else { kind := SyncErrorKind.Generic, message := f.message }

/-- C2: every fetch failure shaped as "resource does not exist" is classified
as NotFound, and the surfaced message contains the requested calendar
identifier. -/
theorem notFound_classified_with_calendar_id (calendarId : String) (f : ProviderFailure)
    (h : indicatesNotFound f = true) :
    (classifySyncError calendarId f).kind = SyncErrorKind.NotFound
      ∧ includesSub (classifySyncError calendarId f).message.data calendarId.data = true := by
  refine ⟨by simp [classifySyncError, h], ?_⟩
  simp only [classifySyncError, h, if_pos]
  have h2 := includesSub_append_middle (("Calendar not found: ").data) calendarId.data []
  simpa [String.data_append] using h2

/-- Witness for C2: a 404-shaped failure while fetching calendar
"team@example.com" classifies as NotFound with the identifier in the message. -/
theorem notFound_classified_with_calendar_id_witness :
    (classifySyncError ("team@example.com")
        { status := some 404, message := ("Not Found") }).kind = SyncErrorKind.NotFound
    ∧ includesSub (classifySyncError ("team@example.com")
        { status := some 404, message := ("Not Found") }).message.data
        (("team@example.com").data) = true :=
  notFound_classified_with_calendar_id ("team@example.com")
    { status := some 404, message := ("Not Found") } (by decide)

/-- Value of a hexadecimal digit character. -/
def hexDigitVal (c : Char) : Option Nat :=
  if ('0') ≤ c && c ≤ ('9') then some (c.toNat - 48)
  else if ('a') ≤ c && c ≤ ('f') then some (c.toNat - 87)
  else if ('A') ≤ c && c ≤ ('F') then some (c.toNat - 55)
  else none

/-- Split at the first occurrence of a separator character; `none` when the
separator does not occur. -/
def splitFirstChar (sep : Char) : Str → Option (Str × Str)
  | [] => none
  | c :: cs =>
    if c = sep then some ([], cs)
    else (splitFirstChar sep cs).map (fun p => (c :: p.1, p.2))

/-- Model of the `application/x-www-form-urlencoded` value decoding performed by
`URLSearchParams` (forgiving: `+` becomes space, a malformed percent escape is
kept verbatim, a non-ASCII byte becomes the replacement character). -/
def wwwFormDecode : Str → Str
  | [] => []
  | '+' :: rest => (' ') :: wwwFormDecode rest
  | '%' :: a :: b :: rest =>
    match hexDigitVal a, hexDigitVal b with
    | some hi, some lo =>
      (if hi * 16 + lo < 128 then Char.ofNat (hi * 16 + lo) else Char.ofNat 0xFFFD)
        :: wwwFormDecode rest
    | _, _ => ('%') :: wwwFormDecode (a :: b :: rest)
  | '%' :: rest => ('%') :: wwwFormDecode rest
  | c :: rest => c :: wwwFormDecode rest

/-- Model of `decodeURIComponent` on the ASCII fragment: strict — a malformed
percent escape, or an escape outside the modelled ASCII range, throws
(`none`). -/
def pctDecodeStrict : Str → Option Str
  | [] => some []
  | '%' :: a :: b :: rest =>
    match hexDigitVal a, hexDigitVal b with
    | some hi, some lo =>
      if hi * 16 + lo < 128 then
        (pctDecodeStrict rest).map (fun l => Char.ofNat (hi * 16 + lo) :: l)
      else none
    | _, _ => none
  | '%' :: _ => none
  | c :: rest => (pctDecodeStrict rest).map (fun l => c :: l)

/-- A valid URL scheme: a letter followed by letters, digits, `+`, `-`, `.`. -/
def schemeOk (s : Str) : Bool :=
  match s with
  | [] => false
  | c :: rest => c.isAlpha && rest.all (fun d => d.isAlphanum || d = ('+') || d = ('-') || d = ('.'))

/-- The query portion of the part after the scheme: everything after the first
`?` of the fragment-stripped remainder (empty when there is no `?`). -/
def queryOf (afterScheme : Str) : Str :=
  let beforeFrag :=
    match splitFirstChar ('#') afterScheme with
    | none => afterScheme
    | some p => p.1
  match splitFirstChar ('?') beforeFrag with
  | none => []
  | some p => p.2

/-- Model of `URLSearchParams` over a raw query string: split on `&`, drop empty
segments, split each segment at its first `=`, and form-decode both sides. -/
def parseParams (query : Str) : List (Str × Str) :=
  (splitOnChar ('&') query).filterMap (fun seg =>
    if seg.isEmpty then none
    else some (match splitFirstChar ('=') seg with
      | none => (wwwFormDecode seg, [])
      | some p => (wwwFormDecode p.1, wwwFormDecode p.2)))

/-- Input preprocessing of the WHATWG URL parser: ASCII tab and newlines are
removed everywhere; leading and trailing C0 controls and spaces are trimmed. -/
def urlPreprocess (s : Str) : Str :=
  let t := s.filter (fun c => !(c = ('\t') || c = ('\n') || c = ('\r')))
  ((t.dropWhile (fun c => c.toNat ≤ 32)).reverse.dropWhile (fun c => c.toNat ≤ 32)).reverse

/-- The special schemes of the WHATWG URL standard, whose authority the parser
validates. -/
def specialSchemes : List Str :=
  [("http").data, ("https").data, ("ws").data, ("wss").data, ("ftp").data, ("file").data]

/-- Authority component of a special-scheme URL: after the scheme colon, skip
leading (back)slashes, then take until the first `/`, `\`, `?` or `#`. -/
def authorityOf (afterScheme : Str) : Str :=
  (afterScheme.dropWhile (fun c => c = ('/') || c = ('\\'))).takeWhile
    (fun c => !(c = ('/') || c = ('\\') || c = ('?') || c = ('#')))

/-- The portion of a list after the last occurrence of a separator (the whole
list when the separator does not occur). -/
def afterLastChar (sep : Char) (s : Str) : Str :=
  match splitFirstChar sep s.reverse with
  | none => s
  | some p => p.1.reverse

/-- Split host-and-port at the last colon: `(host, some port)` when a colon is
present, `(hp, none)` otherwise. -/
def hostPortSplit (hp : Str) : Str × Option Str :=
  match splitFirstChar (':') hp.reverse with
  | none => (hp, none)
  | some p => (p.2.reverse, some p.1.reverse)

/-- A valid port: empty, or all digits with value at most 65535 (an
out-of-range or non-numeric port makes `new URL` throw). -/
def validPort (port : Str) : Bool :=
  port.isEmpty
    || (port.all Char.isDigit
        && port.foldl (fun acc c => acc * 10 + (c.toNat - 48)) 0 ≤ 65535)

/-- Characters that make a special-scheme host invalid (so `new URL` throws). -/
def forbiddenHostChar (c : Char) : Bool :=
  c = (' ') || c = ('<') || c = ('>') || c = ('^') || c = ('|')

/-- Validity of a special-scheme authority: strip the userinfo (up to the last
`@`), then require — unless the scheme is `file`, or the host is an
IPv6-bracketed one, which the model accepts leniently — a nonempty host free
of forbidden characters, and a valid port when one is given. -/
def validSpecialAuthority (hostRequired : Bool) (auth : Str) : Bool :=
  let hp := afterLastChar ('@') auth
  if hp.any (fun c => c = ('[') || c = (']')) then true
  else
    let hs := hostPortSplit hp
    (!hostRequired || !hs.1.isEmpty)
      && !(hs.1.any forbiddenHostChar)
      && (match hs.2 with
          | none => true
          | some port => validPort port)

/-- Model of `new URL(...)` restricted to what the resolver consumes: after the
WHATWG input preprocessing, parsing fails (`none`, a thrown `TypeError`) when
the string has no valid scheme, and for a special scheme also when the
authority is invalid — an empty host (except for `file`), a forbidden host
character, or an out-of-range port; on success it yields the decoded query
parameters. -/
def parseURLParams (s : Str) : Option (List (Str × Str)) :=
  let u := urlPreprocess s
  match splitFirstChar (':') u with
  | none => none
  | some p =>
    if schemeOk p.1 then
      let scheme := lowerS p.1
      if specialSchemes.any (fun t => t == scheme) then
        if validSpecialAuthority (!(scheme == ("file").data)) (authorityOf p.2) then
          some (parseParams (queryOf p.2))
        else none
      else some (parseParams (queryOf p.2))
    else none

/-- Model of `URLSearchParams.get`: first parameter with the given name. -/
def searchParamsGet (ps : List (Str × Str)) (name : Str) : Option Str :=
  (ps.find? (fun p => p.1 == name)).map (fun p => p.2)

/-- Value of a standard base64 alphabet character. -/
def b64Val (c : Char) : Option Nat :=
  if ('A') ≤ c && c ≤ ('Z') then some (c.toNat - 65)
  else if ('a') ≤ c && c ≤ ('z') then some (c.toNat - 71)
  else if ('0') ≤ c && c ≤ ('9') then some (c.toNat + 4)
  else if c = ('+') then some 62
  else if c = ('/') then some 63
  else none

/-- Decode a padding-stripped base64 string into bytes, four characters at a
time, with the final group of two or three characters yielding one or two
bytes (leftover bits discarded). -/
def b64DecodeGroups : Str → Option (List Nat)
  | [] => some []
  | [_] => none
  | [a, b] => do
    let va ← b64Val a
    let vb ← b64Val b
    pure [va * 4 + vb / 16]
  | [a, b, c] => do
    let va ← b64Val a
    let vb ← b64Val b
    let vc ← b64Val c
    pure [va * 4 + vb / 16, (vb % 16) * 16 + vc / 4]
  | a :: b :: c :: d :: rest => do
    let va ← b64Val a
    let vb ← b64Val b
    let vc ← b64Val c
    let vd ← b64Val d
    let tail ← b64DecodeGroups rest
    pure ((va * 4 + vb / 16) :: ((vb % 16) * 16 + vc / 4) :: ((vc % 4) * 64 + vd) :: tail)

/-- ASCII whitespace skipped by forgiving base64. -/
def isB64Space (c : Char) : Bool :=
  c = (' ') || c = ('\t') || c = ('\n') || c = ('\r') || c = ('\x0c')

/-- Remove up to two trailing `=` padding characters. -/
def dropTrailingEq (s : Str) : Str :=
  match s.reverse with
  | '=' :: '=' :: rest => rest.reverse
  | '=' :: rest => rest.reverse
  | _ => s

/-- Model of the platform's `atob` (forgiving base64 decode): strip ASCII
whitespace, strip padding when the length is a multiple of four, fail on a
leftover length of one or on any character outside the alphabet, and return
the decoded bytes as characters. -/
def atob (s : Str) : Option Str :=
  let t := s.filter (fun c => !isB64Space c)
  let t2 := if t.length % 4 = 0 then dropTrailingEq t else t
  if t2.length % 4 = 1 then none
  else (b64DecodeGroups t2).map (fun bytes => bytes.map Char.ofNat)

/-- The provider calendar host tested for by the resolver. -/
def GOOGLE_HOST : Str := ("calendar.google.com").data

/-- The scheme auto-prepend of `GoogleConfigModal.tsx:158-160`: a value
matching `/^calendar\.google\.com/` gets `https://` prefixed for URL parsing. -/
def prepended (originalVal : Str) : Str :=
  if startsWithS originalVal GOOGLE_HOST then ("https://").data ++ originalVal else originalVal

/-- The smart-detection guard of `GoogleConfigModal.tsx:163`: the (possibly
scheme-prepended) value contains the provider host together with a `cid=` or
`src=` substring. -/
def shapeGuard (originalVal : Str) : Bool :=
  let val := prepended originalVal
  includesSub val GOOGLE_HOST
    && (includesSub val (("cid=").data) || includesSub val (("src=").data))

/-- JavaScript truthiness of a `searchParams.get` result: `null` and the empty
string are both falsy — the source tests `if (cid)` and `else if (src)`
(`GoogleConfigModal.tsx:169,182`), so an empty `cid=` parameter falls through
to the `src` branch. -/
def jsTruthyStr : Option Str → Bool
  | some v => !v.isEmpty
  | none => false

/-- Body of the try block of `handleCalendarIdChange`
(`GoogleConfigModal.tsx:164-186`); `none` models an exception reaching the
outer catch (URL parse failure, or `decodeURIComponent` throwing).  The cid
and src branches are guarded by JS truthiness, not mere presence. -/
def resolveTry (val : Str) : Option Str :=
  match parseURLParams val with
  | none => none
  | some ps =>
    let cid := searchParamsGet ps (("cid").data)
    let src := searchParamsGet ps (("src").data)
    if jsTruthyStr cid then
      let c := cid.getD []
      some (match atob c with
        | some decoded =>
          if includesSub decoded (("@").data) || endsWithS decoded (("google.com").data) then
            decoded
          else c
        | none => c)
    else if jsTruthyStr src then
      match pctDecodeStrict (src.getD []) with
      | some d => some d
      | none => none
    else some val

/-- Embedding of the calendar-id resolver `handleCalendarIdChange`
(`GoogleConfigModal.tsx:153-194`), as the function from the pasted input to
the stored calendar id: prepend a scheme to a bare provider-host value, and
when the host/query shape matches, extract the id from the `cid` (base64) or
`src` (percent-encoded) parameter, falling back to the original input when
parsing throws; inputs not matching the shape are stored unchanged. -/
def resolveCalendarIdL (originalVal : Str) : Str :=
  let val := prepended originalVal
  if shapeGuard originalVal then
    match resolveTry val with
    | some r => r
    | none => originalVal
  else originalVal

/-- String-level wrapper of the resolver. -/
def resolveCalendarId (s : String) : String := String.mk (resolveCalendarIdL s.data)

/-- C8: the resolver is total (the embedded function returns a string for
every input — every throwing path of the source is inside the try/catch), and
both an input that does not match the host-plus-`cid=`/`src=` shape and a
shape-matching input whose URL parse throws resolve to the original input
verbatim; in particular `primary` and a plain email address are returned
unchanged. -/
theorem resolver_verbatim_fallback :
    (∀ s : Str, shapeGuard s = false → resolveCalendarIdL s = s)
    ∧ (∀ s : Str, shapeGuard s = true → parseURLParams (prepended s) = none →
        resolveCalendarIdL s = s)
    ∧ resolveCalendarIdL (("primary").data) = ("primary").data
    ∧ resolveCalendarIdL (("user@example.com").data) = ("user@example.com").data := by
  refine ⟨?_, ?_, by decide, by decide⟩
  · intro s hg
    simp [resolveCalendarIdL, hg]
  · intro s hg hp
    simp [resolveCalendarIdL, resolveTry, hg, hp]

/-- Witness for C8: a malformed URL-shaped input (host and `cid=` present but
no scheme, so URL parsing throws) resolves to itself verbatim, as does a
non-matching plain identifier. -/
theorem resolver_verbatim_fallback_witness :
    resolveCalendarIdL (("see calendar.google.com?cid=x").data)
        = ("see calendar.google.com?cid=x").data
    ∧ resolveCalendarIdL (("primary").data) = ("primary").data :=
  ⟨resolver_verbatim_fallback.2.1 _ (by decide) (by decide),
   resolver_verbatim_fallback.1 _ (by decide)⟩
